import Mathlib

/-!
Shallow embedding of the clinic patient-tracking backend (`app.py`) and
verification of its specified properties.

The program reads and writes one Google Sheet whose first row is a header and
whose later rows are patient records.  We model the sheet contents as
`List (List String)` (exactly the `values` 2-D array the Sheets API returns),
JSON request bodies as partial maps from field names to values, and each HTTP
handler as a pure function from its inputs to the response data together with
the list of remote write operations it issues.
-/

/-! ## Python string primitives used by the handlers -/

/-- The characters Python's `str.strip()` removes (ASCII whitespace). -/
def pyIsSpace (c : Char) : Bool :=
  c = ' ' || c = '\t' || c = '\n' || c = '\r' || c = '\x0b' || c = '\x0c'

/-- ASCII lowercasing of one character, as Python's `str.lower()` does on
ASCII text (all strings handled by the app are ASCII). -/
def asciiLowerChar (c : Char) : Char :=
  if 'A' ≤ c && c ≤ 'Z' then Char.ofNat (c.toNat + 32) else c

/-- Python's `s.lower()` on ASCII strings. -/
def asciiLower (s : String) : String :=
  String.mk (s.data.map asciiLowerChar)

/-- Python's `s.strip()`: drop leading and trailing whitespace. -/
def pyStrip (s : String) : String :=
  String.mk (((s.data.dropWhile pyIsSpace).reverse.dropWhile pyIsSpace).reverse)

/-- Accumulator pass of Python's `s.split(',')`: `cur` holds the reversed
characters of the piece being read. -/
def splitCommaAux (cur : List Char) : List Char → List (List Char)
  | [] => [cur.reverse]
  | c :: cs => if c = ',' then cur.reverse :: splitCommaAux [] cs else splitCommaAux (c :: cur) cs

/-- Python's `s.split(',')` (keeps empty pieces; `"".split(',') = [""]`). -/
def pySplitComma (s : String) : List String :=
  (splitCommaAux [] s.data).map String.mk

/-- Python's `','.join(pieces)` at the character-list level. -/
def joinCommaL : List (List Char) → List Char
  | [] => []
  | [d] => d
  | d :: rest => d ++ ',' :: joinCommaL rest

/-- Python's `','.join(pieces)` on strings. -/
def joinComma (l : List String) : String :=
  String.mk (joinCommaL (l.map String.data))

/-- Value of a nonempty all-digit character list, `none` otherwise. -/
def digitsVal (l : List Char) : Option Nat :=
  if l ≠ [] ∧ l.all Char.isDigit then
    some (l.foldl (fun a c => a * 10 + (c.toNat - 48)) 0)
  else none

/-- Python's `int(s)` on ASCII text: strip whitespace, optional sign, digits;
`none` models the `ValueError` raised on any other shape. -/
def pyParseInt (s : String) : Option Int :=
  match ((s.data.dropWhile pyIsSpace).reverse.dropWhile pyIsSpace).reverse with
  | '+' :: rest => (digitsVal rest).map Int.ofNat
  | '-' :: rest => (digitsVal rest).map (fun n => -(n : Int))
  | rest => (digitsVal rest).map Int.ofNat

/-- The visit-count parse in `mark_attendance`:
`int(current_count_str or '0')` with `except ValueError: current_count = 0`. -/
def currentCount (s : String) : Int :=
  match pyParseInt (if s = "" then "0" else s) with
  | some n => n
  | none => 0

/-! ## `column_to_letter` -/

/-- `string.ascii_uppercase` as a character list. -/
def ascii_uppercase : List Char := "ABCDEFGHIJKLMNOPQRSTUVWXYZ".data

/-- The character list built by the `while col_index >= 0` loop of
`column_to_letter`: each pass prepends `ascii_uppercase[col % 26]` and
continues with `col // 26 - 1`, stopping once that quotient is negative
(i.e. once `col < 26`). -/
def colLetters (col : Nat) : List Char :=
  if col < 26 then [ascii_uppercase.getD (col % 26) 'A']
  else colLetters (col / 26 - 1) ++ [ascii_uppercase.getD (col % 26) 'A']
termination_by col
decreasing_by
  have h : col / 26 < col := Nat.div_lt_self (by omega) (by omega)
  omega

/-- `column_to_letter`: 0-based column index to A1 letter notation. -/
def column_to_letter (col : Nat) : String := String.mk (colLetters col)

/-- Numeric value of one A1 letter digit (`'A'` is 1, `'Z'` is 26). -/
def letterVal (c : Char) : Nat := c.toNat - 64

/-- The column number (1-based) an A1 letter label denotes: bijective
base-26 reading of its letters. -/
def labelValue (s : String) : Nat :=
  s.data.foldl (fun a c => a * 26 + letterVal c) 0

/-! ## Row Mapper: `dict(zip(headers, row))` -/

/-- Patient records are string-keyed partial maps, as Python dicts are used
by the handlers (lookup only, insertion-order irrelevant to them). -/
abbrev Rec := String → Option String

/-- Inserting one key/value pair into a dict, overwriting the key. -/
def dictIns (m : Rec) (kv : String × String) : Rec :=
  fun q => if q = kv.1 then some kv.2 else m q

/-- `dict(zip(headers, row))`: pair header names with cells positionally,
truncating at the shorter list; a repeated key keeps its last value. -/
def dictZip (headers row : List String) : Rec :=
  (List.zip headers row).foldl dictIns (fun _ => none)

/-- `GET /api/patients` body: header row keys each data row. -/
def get_patients (values : List (List String)) : List Rec :=
  match values with
  | [] => []
  | headers :: rows => rows.map (dictZip headers)

/-! ## Day Matcher and `GET /api/patients/today` -/

/-- The list-comprehension tokenizer of `get_today_patients`:
`[d.strip().lower() for d in visit_days_str.split(',') if d.strip()]`. -/
def visitTokens (s : String) : List String :=
  (((pySplitComma s).map pyStrip).filter (fun d => d ≠ "")).map asciiLower

/-- The membership test of `get_today_patients`:
`today_day in visit_days or 'daily' in visit_days`. -/
def selectsToday (today s : String) : Bool :=
  let visit_days := visitTokens s
  visit_days.contains today || visit_days.contains "daily"

/-- Python dict item assignment `p[k] = v`. -/
def setKey (m : Rec) (k v : String) : Rec :=
  fun q => if q = k then some v else m q

/-- Body of the per-patient loop of `get_today_patients`: keep the record
when its visit days match today, defaulting `'Visit Count'` to `"0"` when
missing or empty and adding the `'Patient_ID'` key for the front end. -/
def todayTransform (today : String) (p : Rec) : Option Rec :=
  if selectsToday today ((p "visit days").getD "") then
    let p1 := if (p "Visit Count").getD "" = "" then setKey p "Visit Count" "0" else p
    some (setKey p1 "Patient_ID" ((p1 "Patient ID").getD ""))
  else none

/-- `GET /api/patients/today` body, given the lowercased full weekday name
`today` (Python's `datetime.today().strftime('%A').lower()`). -/
def get_today_patients (values : List (List String)) (today : String) : List Rec :=
  match values with
  | [] => []
  | headers :: rows => (rows.map (dictZip headers)).filterMap (todayTransform today)

/-! ## `POST /api/patients` -/

/-- JSON values the create handler reads from its request body: strings for
the scalar fields and a list of strings for `'visit days'`. -/
inductive PyVal where
  | str : String → PyVal
  | strList : List String → PyVal
deriving DecidableEq

/-- A JSON object body: a partial map from field names to values. -/
abbrev Body := String → Option PyVal

/-- What `','.join(x)` iterates over: a list joins its elements; a string
joins its one-character substrings. -/
def pyJoinArg : PyVal → List String
  | .strList l => l
  | .str s => s.data.map (fun c => String.mk [c])

/-- The row built by `add_patient`, in its fixed hard-coded column order;
`data.get(key, default)` is `(body key).getD default`. -/
def add_patient_row (body : Body) : List PyVal :=
  [ (body "Patient_ID").getD (.str ""),
    (body "Name").getD (.str ""),
    (body "number").getD (.str ""),
    (body "Age").getD (.str ""),
    (body "Gender").getD (.str ""),
    (body "Occupation").getD (.str ""),
    (body "Ref. by").getD (.str ""),
    (body "Address").getD (.str ""),
    (body "Date of joining").getD (.str ""),
    (body "conditions").getD (.str ""),
    (body "Time").getD (.str ""),
    .str (joinComma (pyJoinArg ((body "visit days").getD (.strList [])))),
    (body "Visit Count").getD (.str "0"),
    .str "No" ]

/-- `POST /api/patients`: returned status together with the rows the append
call sends (the handler always appends exactly the one built row). -/
def add_patient (body : Body) : String × List (List PyVal) :=
  ("success", [add_patient_row body])

/-! ## `PUT /api/patients/<patient_id>/attend` -/

/-- One remote single-cell update: absolute 1-based sheet row, 0-based
column index (turned into a letter by `column_to_letter`), value written. -/
structure WriteOp where
  row : Nat
  col : Nat
  val : Int
deriving DecidableEq

/-- Observable outcome of `mark_attendance`: JSON status, HTTP code,
whether the sheet was read, and the writes issued. -/
structure AttendOutcome where
  status : String
  code : Nat
  didRead : Bool
  writes : List WriteOp
deriving DecidableEq

/-- The row test of the attendance loop:
`str(row[pc]) if len(row) > pc else None`, compared to the identifier. -/
def rowMatches (patient_id : String) (pc : Nat) (row : List String) : Bool :=
  match row[pc]? with
  | some v => v == patient_id
  | none => false

/-- The `for i, row in enumerate(data_rows, start=2)` scan: the first
matching row yields the single-cell write (new count at its visit-count
cell, defaulting a missing cell to `'0'`), then the loop breaks. -/
def findLoop (patient_id : String) (pc vc : Nat) : Nat → List (List String) → Option WriteOp
  | _, [] => none
  | i, row :: rest =>
    if rowMatches patient_id pc row then
      some ⟨i, vc, currentCount ((row[vc]?).getD "0") + 1⟩
    else findLoop patient_id pc vc (i + 1) rest

/-- `PUT /api/patients/<patient_id>/attend` with the already-extracted
`action` body field (`data.get('action', '')`) and the sheet contents the
read would return. -/
def mark_attendance (patient_id action : String) (values : List (List String)) :
    AttendOutcome :=
  if asciiLower action ≠ "confirm" then ⟨"ignored", 200, false, []⟩
  else
    match values with
    | [] => ⟨"not found", 404, true, []⟩
    | headers :: data_rows =>
      match headers.indexOf? "Patient ID", headers.indexOf? "Visit Count" with
      | some pc, some vc =>
        match findLoop patient_id pc vc 2 data_rows with
        | some w => ⟨"updated", 200, true, [w]⟩
        | none => ⟨"not found", 200, true, []⟩
      | _, _ => ⟨"error", 500, true, []⟩

/-- Effect of one Sheets single-cell update on the stored grid: set the
cell, extending the row with empty cells if it was too short. -/
def setCell (row : List String) (col : Nat) (v : String) : List String :=
  (row ++ List.replicate (col + 1 - row.length) "").set col v

/-- Apply one write operation to the sheet contents. -/
def applyWrite (values : List (List String)) (w : WriteOp) : List (List String) :=
  values.set (w.row - 1) (setCell (values.getD (w.row - 1) []) w.col (toString w.val))

/-- Apply a list of write operations in order. -/
def applyWrites (values : List (List String)) (ws : List WriteOp) : List (List String) :=
  ws.foldl applyWrite values

/-! ## Day Matcher as the specification words it -/

/-- Modelled from the spec: the Day Matcher rule of the specification
(section 4.2), which the code's `get_today_patients` is claimed to refine —
match when the token `"daily"` is present, or the full weekday name is
present, or the 3-letter abbreviation is present, or some stored token's
first three characters equal the abbreviation. -/
def specDayMatch (today s : String) : Bool :=
  let toks := visitTokens s
  let abbr := String.mk (today.data.take 3)
  toks.contains "daily" || toks.contains today || toks.contains abbr ||
    toks.any (fun t => String.mk (t.data.take 3) == abbr)


/-! ## Concrete instances used by the witnesses and counterexamples -/

/-- A sheet with the two required header columns and one patient row. -/
def sheetOne : List (List String) := [["Patient ID", "Visit Count"], ["p1", "3"]]

/-- A sheet whose single patient visits daily and has an empty count cell. -/
def sheetToday : List (List String) :=
  [["Patient ID", "visit days", "Visit Count"], ["p1", "daily", ""]]

/-- A create-request body supplying only an identifier and a name. -/
def minimalBody : Body :=
  fun k => if k = "Patient_ID" then some (.str "P1")
    else if k = "Name" then some (.str "Ann") else none

/-- A create-request body supplying only a visit-days list. -/
def visitBody : Body :=
  fun k => if k = "visit days" then some (.strList ["Monday", "Friday"]) else none

/-! ## Dictionary lemmas -/

theorem foldl_dictIns_not_mem (pairs : List (String × String)) :
    ∀ (m : Rec) (q : String), (∀ p ∈ pairs, p.1 ≠ q) → (pairs.foldl dictIns m) q = m q := by
  induction pairs with
  | nil => intro m q _; rfl
  | cons p t ih =>
    intro m q h
    rw [List.foldl_cons, ih _ q (fun r hr => h r (List.mem_cons_of_mem p hr))]
    exact if_neg (fun e => h p (List.mem_cons_self p t) e.symm)

theorem foldl_dictIns_getD (pairs : List (String × String)) :
    ∀ (m : Rec) (i : Nat), i < pairs.length → (pairs.map Prod.fst).Nodup →
    (pairs.foldl dictIns m) (pairs.getD i ("", "")).1 = some (pairs.getD i ("", "")).2 := by
  induction pairs with
  | nil => intro m i h _; simp at h
  | cons p t ih =>
    intro m i hi hnd
    cases i with
    | zero =>
      have hnotin : p.1 ∉ t.map Prod.fst := (List.nodup_cons.mp (by simpa using hnd)).1
      rw [List.foldl_cons, List.getD_cons_zero,
        foldl_dictIns_not_mem t _ p.1
          (fun r hr e => hnotin (e ▸ List.mem_map_of_mem Prod.fst hr))]
      simp [dictIns]
    | succ j =>
      rw [List.foldl_cons, List.getD_cons_succ]
      exact ih _ j (by simpa using hi) (List.nodup_cons.mp (by simpa using hnd)).2

theorem map_fst_zip_eq_take (l1 l2 : List String) :
    (List.zip l1 l2).map Prod.fst = l1.take l2.length := by
  induction l1 generalizing l2 with
  | nil => simp
  | cons a t ih =>
    cases l2 with
    | nil => simp
    | cons b u => simp [List.zip_cons_cons, ih]

/-- C6 — Row Mapper on ragged rows: for a data row strictly shorter than the
header row (with distinct header names), the record `dict(zip(headers, row))`
maps each header name covered by the data row to the corresponding cell, and
every trailing header name is absent from the mapping (it looks up to `none`,
not to an empty string), the mapping being a total Lean function (no error). -/
theorem c6_row_mapper_ragged (headers row : List String) (i j : Nat)
    (hlen : row.length < headers.length) (hnd : headers.Nodup)
    (hi : i < row.length) (hj : j < headers.length) (hji : row.length ≤ j) :
    dictZip headers row (headers.getD i "") = some (row.getD i "") ∧
    dictZip headers row (headers.getD j "") = none := by
  have hilen : i < (List.zip headers row).length := by
    rw [List.length_zip]; omega
  have hkeys : (List.zip headers row).map Prod.fst = headers.take row.length :=
    map_fst_zip_eq_take headers row
  constructor
  · have h := foldl_dictIns_getD (List.zip headers row) (fun _ => none) i hilen
      (by rw [hkeys]; exact hnd.sublist (List.take_sublist _ _))
    rw [List.getD_eq_getElem _ _ hilen, List.getElem_zip] at h
    rw [dictZip]
    rw [List.getD_eq_getElem _ _ (by omega : i < headers.length),
      List.getD_eq_getElem _ _ hi]
    exact h
  · rw [dictZip]
    rw [foldl_dictIns_not_mem _ _ _ ?_]
    intro p hp he
    have hmem : p.1 ∈ headers.take row.length := by
      rw [← hkeys]; exact List.mem_map_of_mem Prod.fst hp
    rw [List.mem_iff_getElem] at hmem
    obtain ⟨k, hk, hkeq⟩ := hmem
    have hklen : k < row.length := by
      have := List.length_take_le row.length headers
      omega
    have hkh : k < headers.length := by omega
    rw [List.getElem_take] at hkeq
    rw [List.getD_eq_getElem _ _ hj] at he
    have : k = j := by
      have := hnd.getElem_inj_iff.mp (hkeq.trans he)
      exact this
    omega

/-- C6 witness: headers `["a","b","c"]` with the single-cell row `["x"]` map
`"a"` to `"x"` and leave `"c"` absent. -/
theorem c6_row_mapper_ragged_witness :
    dictZip ["a", "b", "c"] ["x"] "a" = some "x" ∧
    dictZip ["a", "b", "c"] ["x"] "c" = none :=
  c6_row_mapper_ragged ["a", "b", "c"] ["x"] 0 2 (by decide) (by decide)
    (by decide) (by decide) (by decide)

/-- C3 counterexample: the action value `"CONFIRM"` is not the literal
`"confirm"`, yet it triggers the full read-and-write work (the handler
lowercases the action before comparing), refuting the claim that only the
literal value `"confirm"` triggers any work. -/
theorem c3_counterexample :
    mark_attendance "p1" "CONFIRM" sheetOne = ⟨"updated", 200, true, [⟨2, 1, 4⟩]⟩ ∧
    "CONFIRM" ≠ "confirm" := by
  constructor
  · decide
  · decide

/-- C3 amended — action gate: only request bodies whose action value
lowercases to `"confirm"` trigger any work; for every other action value the
handler performs no remote read and no write and returns status `"ignored"`
with HTTP 200. -/
theorem c3_action_gate (patient_id action : String) (values : List (List String))
    (h : asciiLower action ≠ "confirm") :
    mark_attendance patient_id action values = ⟨"ignored", 200, false, []⟩ := by
  unfold mark_attendance
  rw [if_pos h]

/-- C3 witness: action `"cancel"` is ignored with no read and no write. -/
theorem c3_action_gate_witness :
    mark_attendance "p1" "cancel" sheetOne = ⟨"ignored", 200, false, []⟩ :=
  c3_action_gate "p1" "cancel" sheetOne (by decide)

/-- C5 counterexample: creating a patient with only an identifier and a name
appends a row whose visit-count cell is `"0"` and whose attendance flag is
`"No"`, not the claimed all-empty non-supplied fields. -/
theorem c5_counterexample :
    (add_patient minimalBody).2 =
      [[.str "P1", .str "Ann", .str "", .str "", .str "", .str "", .str "", .str "",
        .str "", .str "", .str "", .str "", .str "0", .str "No"]] ∧
    (add_patient minimalBody).2 ≠
      [[.str "P1", .str "Ann", .str "", .str "", .str "", .str "", .str "", .str "",
        .str "", .str "", .str "", .str "", .str "", .str ""]] := by
  constructor
  · decide
  · decide

/-- C5 amended — Create: for a JSON object body supplying only an identifier
and a name, the handler appends exactly one row in the fixed hard-coded
column order in which every non-supplied field is the empty string, except
that the visit-count column defaults to `"0"` and the final attendance-flag
column is always `"No"`. -/
theorem c5_create_minimal (body : Body) (pid nm : String)
    (hid : body "Patient_ID" = some (.str pid)) (hnm : body "Name" = some (.str nm))
    (hother : ∀ k, k ≠ "Patient_ID" → k ≠ "Name" → body k = none) :
    (add_patient body).2 =
      [[.str pid, .str nm, .str "", .str "", .str "", .str "", .str "", .str "",
        .str "", .str "", .str "", .str "", .str "0", .str "No"]] := by
  have h1 := hother "number" (by decide) (by decide)
  have h2 := hother "Age" (by decide) (by decide)
  have h3 := hother "Gender" (by decide) (by decide)
  have h4 := hother "Occupation" (by decide) (by decide)
  have h5 := hother "Ref. by" (by decide) (by decide)
  have h6 := hother "Address" (by decide) (by decide)
  have h7 := hother "Date of joining" (by decide) (by decide)
  have h8 := hother "conditions" (by decide) (by decide)
  have h9 := hother "Time" (by decide) (by decide)
  have h10 := hother "visit days" (by decide) (by decide)
  have h11 := hother "Visit Count" (by decide) (by decide)
  simp [add_patient, add_patient_row, hid, hnm, h1, h2, h3, h4, h5, h6, h7, h8,
    h9, h10, h11, pyJoinArg, joinComma, joinCommaL]

/-- C5 witness: the concrete minimal body with identifier `"P1"` and name
`"Ann"` appends exactly the row with `"0"` and `"No"` defaults. -/
theorem c5_create_minimal_witness :
    (add_patient minimalBody).2 =
      [[.str "P1", .str "Ann", .str "", .str "", .str "", .str "", .str "", .str "",
        .str "", .str "", .str "", .str "", .str "0", .str "No"]] :=
  c5_create_minimal minimalBody "P1" "Ann" (by decide) (by decide)
    (fun k h1 h2 => by simp [minimalBody, h1, h2])

/-! ## Attendance-scan lemmas -/

theorem findLoop_eq_none (patient_id : String) (pc vc : Nat) :
    ∀ (rows : List (List String)) (s : Nat),
      (∀ row ∈ rows, rowMatches patient_id pc row = false) →
      findLoop patient_id pc vc s rows = none := by
  intro rows
  induction rows with
  | nil => intro s _; rfl
  | cons r t ih =>
    intro s h
    unfold findLoop
    rw [h r (List.mem_cons_self r t)]
    simp only [Bool.false_eq_true, if_false]
    exact ih (s + 1) (fun row hr => h row (List.mem_cons_of_mem r hr))

theorem findLoop_first (patient_id : String) (pc vc : Nat) :
    ∀ (rows : List (List String)) (i s : Nat),
      i < rows.length →
      (∀ k, k < i → rowMatches patient_id pc (rows.getD k []) = false) →
      rowMatches patient_id pc (rows.getD i []) = true →
      findLoop patient_id pc vc s rows =
        some ⟨s + i, vc, currentCount (((rows.getD i [])[vc]?).getD "0") + 1⟩ := by
  intro rows
  induction rows with
  | nil => intro i s hi; simp at hi
  | cons r t ih =>
    intro i s hi hlt hm
    cases i with
    | zero =>
      rw [List.getD_cons_zero] at hm
      unfold findLoop
      rw [hm]
      simp
    | succ n =>
      have h0 : rowMatches patient_id pc r = false := by
        have := hlt 0 (Nat.succ_pos n)
        rwa [List.getD_cons_zero] at this
      rw [List.getD_cons_succ] at hm
      unfold findLoop
      rw [h0]
      simp only [Bool.false_eq_true, if_false]
      have hrec := ih n (s + 1) (by simpa using hi)
        (fun k hk => by
          have := hlt (k + 1) (by omega)
          rwa [List.getD_cons_succ] at this) hm
      rw [hrec, List.getD_cons_succ]
      have : s + 1 + n = s + (n + 1) := by omega
      rw [this]

/-- C2 — Attendance Updater (confirm): on a sheet with the identifier and
visit-count header columns and one data row that matches the requested
identifier, a confirm request reads the sheet, parses the row's visit-count
cell (a missing cell reading as `"0"`, a blank or non-numeric cell parsing
to zero), issues exactly one write of that value plus one at the row's
absolute sheet row 2 and the visit-count column, leaves the sheet equal to
itself except that cell, and returns status `"updated"` with HTTP 200. -/
theorem c2_confirm_increments (headers row : List String) (pid s : String) (pc vc : Nat)
    (hpc : headers.indexOf? "Patient ID" = some pc)
    (hvc : headers.indexOf? "Visit Count" = some vc)
    (hmatch : row[pc]? = some pid) :
    mark_attendance pid "confirm" [headers, row] =
      ⟨"updated", 200, true, [⟨2, vc, currentCount ((row[vc]?).getD "0") + 1⟩]⟩ ∧
    applyWrites [headers, row] [⟨2, vc, currentCount ((row[vc]?).getD "0") + 1⟩] =
      [headers, setCell row vc (toString (currentCount ((row[vc]?).getD "0") + 1))] ∧
    (s = "" → currentCount s = 0) ∧
    (pyParseInt s = none → currentCount s = 0) := by
  refine ⟨?_, ?_, ?_, ?_⟩
  · unfold mark_attendance
    rw [if_neg (by decide)]
    simp only [hpc, hvc]
    have hm : rowMatches pid pc row = true := by
      unfold rowMatches
      rw [hmatch]
      simp
    unfold findLoop
    rw [hm]
    simp
  · simp [applyWrites, applyWrite, List.getD]
  · intro he
    subst he
    decide
  · intro hn
    by_cases he : s = ""
    · subst he
      decide
    · unfold currentCount
      rw [if_neg he, hn]

/-- C2 witness: a stored count of `"3"` yields one write of 4 to cell row 2,
column 1 of the sheet, and the updated sheet stores `"4"`. -/
theorem c2_confirm_increments_witness :
    mark_attendance "p1" "confirm" sheetOne = ⟨"updated", 200, true, [⟨2, 1, 4⟩]⟩ ∧
    applyWrites sheetOne [⟨2, 1, 4⟩] = [["Patient ID", "Visit Count"], ["p1", "4"]] := by
  have h := c2_confirm_increments ["Patient ID", "Visit Count"] ["p1", "3"] "p1" "x" 0 1
    (by decide) (by decide) (by decide)
  have e : currentCount (((["p1", "3"] : List String)[1]?).getD "0") + 1 = 4 := by decide
  rw [e] at h
  refine ⟨h.1, ?_⟩
  show applyWrites [["Patient ID", "Visit Count"], ["p1", "3"]] [⟨2, 1, 4⟩] =
    [["Patient ID", "Visit Count"], ["p1", "4"]]
  rw [h.2.1]
  decide

/-- C4 — Attendance Updater not-found outcome: when the header has both
required columns but no data row's identifier cell equals the requested
identifier, a confirm request reads the sheet, performs no write (the sheet
is unchanged), and returns the normal non-error status `"not found"` with
HTTP 200. -/
theorem c4_not_found (headers : List String) (rows : List (List String)) (pid : String)
    (pc vc : Nat)
    (hpc : headers.indexOf? "Patient ID" = some pc)
    (hvc : headers.indexOf? "Visit Count" = some vc)
    (hnone : ∀ row ∈ rows, rowMatches pid pc row = false) :
    mark_attendance pid "confirm" (headers :: rows) = ⟨"not found", 200, true, []⟩ ∧
    applyWrites (headers :: rows) [] = headers :: rows := by
  constructor
  · unfold mark_attendance
    rw [if_neg (by decide)]
    simp only [hpc, hvc]
    rw [findLoop_eq_none pid pc vc rows 2 hnone]
  · rfl

/-- C4 witness: confirming the absent identifier `"px"` on a one-patient
sheet writes nothing and returns `"not found"`. -/
theorem c4_not_found_witness :
    mark_attendance "px" "confirm" sheetOne = ⟨"not found", 200, true, []⟩ ∧
    applyWrites sheetOne [] = sheetOne :=
  c4_not_found ["Patient ID", "Visit Count"] [["p1", "3"]] "px" 0 1
    (by decide) (by decide) (by decide)

/-- C7 — duplicate identifiers: on a sheet with two or more data rows whose
identifier cells equal the requested identifier, a confirm request issues
exactly one write, targeting the first matching row in sheet order (absolute
sheet row `i + 2` for 0-based data index `i`), and every other row of the
sheet — the header and all later duplicates included — is unchanged in the
updated sheet. -/
theorem c7_first_match_only (headers : List String) (rows : List (List String))
    (pid : String) (pc vc : Nat) (i j m : Nat)
    (hpc : headers.indexOf? "Patient ID" = some pc)
    (hvc : headers.indexOf? "Visit Count" = some vc)
    (hij : i < j) (hj : j < rows.length)
    (hmi : rowMatches pid pc (rows.getD i []) = true)
    (hmj : rowMatches pid pc (rows.getD j []) = true)
    (hleast : ∀ k, k < i → rowMatches pid pc (rows.getD k []) = false)
    (hm : m ≠ i + 1) :
    mark_attendance pid "confirm" (headers :: rows) =
      ⟨"updated", 200, true,
        [⟨i + 2, vc, currentCount (((rows.getD i [])[vc]?).getD "0") + 1⟩]⟩ ∧
    (applyWrites (headers :: rows)
        [⟨i + 2, vc, currentCount (((rows.getD i [])[vc]?).getD "0") + 1⟩])[m]? =
      (headers :: rows)[m]? := by
  have _hmj := hmj
  constructor
  · unfold mark_attendance
    rw [if_neg (by decide)]
    simp only [hpc, hvc]
    rw [findLoop_first pid pc vc rows i 2 (by omega) hleast hmi]
    simp [Nat.add_comm]
  · unfold applyWrites applyWrite
    simp only [List.foldl_cons, List.foldl_nil]
    exact List.getElem?_set_ne (by omega)

/-- C7 witness: with `"p1"` stored in data rows 0 and 2, confirming writes
only absolute sheet row 2, and sheet row index 3 (the later duplicate) is
untouched. -/
theorem c7_first_match_only_witness :
    mark_attendance "p1" "confirm"
        [["Patient ID", "Visit Count"], ["p1", "3"], ["q", "7"], ["p1", "9"]] =
      ⟨"updated", 200, true, [⟨2, 1, 4⟩]⟩ ∧
    (applyWrites [["Patient ID", "Visit Count"], ["p1", "3"], ["q", "7"], ["p1", "9"]]
        [⟨2, 1, 4⟩])[3]? =
      ([["Patient ID", "Visit Count"], ["p1", "3"], ["q", "7"], ["p1", "9"]] :
        List (List String))[3]? := by
  have h := c7_first_match_only ["Patient ID", "Visit Count"]
    [["p1", "3"], ["q", "7"], ["p1", "9"]] "p1" 0 1 0 2 3
    (by decide) (by decide) (by omega) (by decide) (by decide) (by decide)
    (fun k hk => absurd hk (by omega)) (by omega)
  have e : currentCount (((([["p1", "3"], ["q", "7"], ["p1", "9"]] :
      List (List String)).getD 0 [])[1]?).getD "0") + 1 = 4 := by decide
  rw [e] at h
  exact h

/-- C8 — list-today output shape: every record returned by
`get_today_patients` comes from some data row and carries a `"Visit Count"`
field — equal to `"0"` exactly when the stored cell is absent or empty, and
otherwise to the stored value — and carries the identifier under the
normalized key `"Patient_ID"`, equal to the source `"Patient ID"` field or
the empty string when that field is absent. -/
theorem c8_today_record_shape (headers : List String) (rows : List (List String))
    (today : String) (p : Rec)
    (hmem : p ∈ get_today_patients (headers :: rows) today) :
    ∃ row ∈ rows,
      p "Visit Count" =
        some (if (dictZip headers row "Visit Count").getD "" = "" then "0"
          else (dictZip headers row "Visit Count").getD "") ∧
      p "Patient_ID" = some ((dictZip headers row "Patient ID").getD "") := by
  unfold get_today_patients at hmem
  rw [List.mem_filterMap] at hmem
  obtain ⟨q, hq, hqp⟩ := hmem
  rw [List.mem_map] at hq
  obtain ⟨row, hrow, rfl⟩ := hq
  refine ⟨row, hrow, ?_⟩
  unfold todayTransform at hqp
  by_cases hsel : selectsToday today ((dictZip headers row "visit days").getD "")
  · rw [if_pos hsel] at hqp
    simp only [Option.some.injEq] at hqp
    subst hqp
    by_cases hvc : (dictZip headers row "Visit Count").getD "" = ""
    · rw [if_pos hvc]
      simp only [if_pos hvc]
      constructor
      · show setKey (setKey (dictZip headers row) "Visit Count" "0") "Patient_ID"
          ((setKey (dictZip headers row) "Visit Count" "0" "Patient ID").getD "")
          "Visit Count" = some "0"
        simp [setKey]
      · show setKey (setKey (dictZip headers row) "Visit Count" "0") "Patient_ID"
          ((setKey (dictZip headers row) "Visit Count" "0" "Patient ID").getD "")
          "Patient_ID" = _
        simp [setKey]
    · rw [if_neg hvc]
      simp only [if_neg hvc]
      have hsome : dictZip headers row "Visit Count" =
          some ((dictZip headers row "Visit Count").getD "") := by
        cases h : dictZip headers row "Visit Count" with
        | none => rw [h] at hvc; simp at hvc
        | some v => simp
      constructor
      · show setKey (dictZip headers row) "Patient_ID"
          ((dictZip headers row "Patient ID").getD "") "Visit Count" = _
        rw [setKey, if_neg (by decide)]
        exact hsome
      · show setKey (dictZip headers row) "Patient_ID"
          ((dictZip headers row "Patient ID").getD "") "Patient_ID" = _
        simp [setKey]
  · rw [if_neg hsel] at hqp
    exact absurd hqp (by simp)

/-- C8 witness: for the one-row daily sheet, the single returned record has
visit count `"0"` (the stored cell is empty) and `Patient_ID` `"p1"`. -/
theorem c8_today_record_shape_witness :
    ∃ row ∈ [["p1", "daily", ""]],
      (get_today_patients sheetToday "monday").getD 0 (fun _ => none) "Visit Count" =
        some (if (dictZip ["Patient ID", "visit days", "Visit Count"] row
            "Visit Count").getD "" = "" then "0"
          else (dictZip ["Patient ID", "visit days", "Visit Count"] row
            "Visit Count").getD "") ∧
      (get_today_patients sheetToday "monday").getD 0 (fun _ => none) "Patient_ID" =
        some ((dictZip ["Patient ID", "visit days", "Visit Count"] row
          "Patient ID").getD "") := by
  have h0 : 0 < (get_today_patients sheetToday "monday").length := by decide
  have hmem : (get_today_patients sheetToday "monday").getD 0 (fun _ => none) ∈
      get_today_patients sheetToday "monday" := by
    rw [List.getD_eq_getElem _ _ h0]
    exact List.getElem_mem h0
  exact c8_today_record_shape ["Patient ID", "visit days", "Visit Count"]
    [["p1", "daily", ""]] "monday" _ hmem

/-! ## `column_to_letter` lemmas -/

theorem letterVal_uppercase : ∀ r : Fin 26,
    letterVal (ascii_uppercase.getD r 'A') = r + 1 := by decide

theorem uppercase_range : ∀ r : Fin 26,
    'A' ≤ ascii_uppercase.getD r 'A' ∧ ascii_uppercase.getD r 'A' ≤ 'Z' := by decide

theorem labelValue_colLetters (col : Nat) :
    (colLetters col).foldl (fun a c => a * 26 + letterVal c) 0 = col + 1 := by
  induction col using Nat.strong_induction_on with
  | _ col ih =>
    rw [colLetters]
    by_cases h : col < 26
    · rw [if_pos h]
      simp only [List.foldl_cons, List.foldl_nil]
      have := letterVal_uppercase ⟨col % 26, Nat.mod_lt col (by omega)⟩
      simp only at this
      rw [this]
      omega
    · rw [if_neg h]
      rw [List.foldl_append]
      have hlt : col / 26 - 1 < col := by
        have : col / 26 < col := Nat.div_lt_self (by omega) (by omega)
        omega
      rw [ih (col / 26 - 1) hlt]
      simp only [List.foldl_cons, List.foldl_nil]
      have := letterVal_uppercase ⟨col % 26, Nat.mod_lt col (by omega)⟩
      simp only at this
      rw [this]
      have hdiv : 26 * (col / 26) + col % 26 = col := Nat.div_add_mod col 26
      have h1 : 1 ≤ col / 26 := by
        rw [Nat.le_div_iff_mul_le (by omega)]
        omega
      omega

theorem colLetters_range (col : Nat) :
    ∀ c ∈ colLetters col, 'A' ≤ c ∧ c ≤ 'Z' := by
  induction col using Nat.strong_induction_on with
  | _ col ih =>
    rw [colLetters]
    by_cases h : col < 26
    · rw [if_pos h]
      intro c hc
      rw [List.mem_singleton] at hc
      subst hc
      exact uppercase_range ⟨col % 26, Nat.mod_lt col (by omega)⟩
    · rw [if_neg h]
      intro c hc
      rw [List.mem_append] at hc
      rcases hc with hc | hc
      · have hlt : col / 26 - 1 < col := by
          have : col / 26 < col := Nat.div_lt_self (by omega) (by omega)
          omega
        exact ih (col / 26 - 1) hlt c hc
      · rw [List.mem_singleton] at hc
        subst hc
        exact uppercase_range ⟨col % 26, Nat.mod_lt col (by omega)⟩

theorem colLetters_ne_nil (col : Nat) : colLetters col ≠ [] := by
  rw [colLetters]
  by_cases h : col < 26
  · rw [if_pos h]
    simp
  · rw [if_neg h]
    simp

/-- C9 — `column_to_letter` correctness: for every 0-based column index the
function terminates (it is a total function) and returns a nonempty string of
uppercase letters whose bijective base-26 value is the 1-based column number
— the defining property of A1 column labels — and in particular maps 0, 25,
26, 27, 701, 702 to `"A"`, `"Z"`, `"AA"`, `"AB"`, `"ZZ"`, `"AAA"`. -/
theorem c9_column_to_letter_correct (col : Nat) :
    labelValue (column_to_letter col) = col + 1 ∧
    (column_to_letter col).data ≠ [] ∧
    (∀ c ∈ (column_to_letter col).data, 'A' ≤ c ∧ c ≤ 'Z') ∧
    column_to_letter 0 = "A" ∧ column_to_letter 25 = "Z" ∧
    column_to_letter 26 = "AA" ∧ column_to_letter 27 = "AB" ∧
    column_to_letter 701 = "ZZ" ∧ column_to_letter 702 = "AAA" := by
  refine ⟨labelValue_colLetters col, colLetters_ne_nil col, colLetters_range col,
    ?_, ?_, ?_, ?_, ?_, ?_⟩
  · simp [column_to_letter, colLetters, ascii_uppercase]
  · simp [column_to_letter, colLetters, ascii_uppercase]
  · simp [column_to_letter, colLetters, ascii_uppercase]
  · simp [column_to_letter, colLetters, ascii_uppercase]
  · simp [column_to_letter, colLetters, ascii_uppercase]
  · simp [column_to_letter, colLetters, ascii_uppercase]

/-! ## Day Matcher lemmas -/

theorem selectsToday_iff (today s : String) :
    selectsToday today s = true ↔
      "daily" ∈ visitTokens s ∨ today ∈ visitTokens s := by
  simp [selectsToday, List.contains]
  tauto

/-- C1 counterexample: on a Saturday, a stored visit-days value `"sat"` is
matched by the specified Day Matcher (the abbreviated form is present) but
the list-today filter does not select the patient — the code only matches
the literal token `"daily"` or the full weekday name. -/
theorem c1_counterexample :
    selectsToday "saturday" "sat" = false ∧
    specDayMatch "saturday" "sat" = true ∧
    get_today_patients [["Patient ID", "visit days"], ["p1", "sat"]] "saturday" = [] := by
  refine ⟨by decide, by decide, ?_⟩
  rfl

/-- C1 amended — Day Matcher: for every visit-days string and every current
weekday, the list-today filter selects a patient if and only if, after
splitting the stored visit-days text into trimmed, lowercased, nonempty
tokens, the literal token `"daily"` is present OR the full weekday name is
present; no abbreviated or three-character-prefix matching is performed. -/
theorem c1_day_matcher (headers r : List String) (today : String) :
    get_today_patients [headers, r] today ≠ [] ↔
      "daily" ∈ visitTokens ((dictZip headers r "visit days").getD "") ∨
      today ∈ visitTokens ((dictZip headers r "visit days").getD "") := by
  cases hsel : selectsToday today ((dictZip headers r "visit days").getD "") with
  | true =>
    constructor
    · intro _
      exact (selectsToday_iff _ _).mp hsel
    · intro _
      simp [get_today_patients, todayTransform, hsel]
  | false =>
    constructor
    · intro hne
      exact absurd (by simp [get_today_patients, todayTransform, hsel]) hne
    · intro hmem
      exact absurd ((selectsToday_iff _ _).mpr hmem) (by simp [hsel])

/-! ## Visit-days round-trip lemmas -/

theorem splitCommaAux_no_comma :
    ∀ (s cur : List Char), ',' ∉ s → splitCommaAux cur s = [cur.reverse ++ s] := by
  intro s
  induction s with
  | nil => intro cur _; simp [splitCommaAux]
  | cons c cs ih =>
    intro cur h
    have hc : ¬c = ',' := fun e => h (e ▸ List.mem_cons_self c cs)
    unfold splitCommaAux
    rw [if_neg hc, ih (c :: cur) (fun hm => h (List.mem_cons_of_mem c hm))]
    simp

theorem splitCommaAux_cons (cur : List Char) (c : Char) (cs : List Char) :
    splitCommaAux cur (c :: cs) =
      if c = ',' then cur.reverse :: splitCommaAux [] cs else splitCommaAux (c :: cur) cs := rfl

theorem splitCommaAux_append :
    ∀ (s t cur : List Char), ',' ∉ s →
      splitCommaAux cur (s ++ ',' :: t) = (cur.reverse ++ s) :: splitCommaAux [] t := by
  intro s
  induction s with
  | nil =>
    intro t cur _
    show splitCommaAux cur (',' :: t) = _
    rw [splitCommaAux_cons, if_pos rfl]
    simp
  | cons c cs ih =>
    intro t cur h
    have hc : ¬c = ',' := fun e => h (e ▸ List.mem_cons_self c cs)
    show splitCommaAux cur (c :: (cs ++ ',' :: t)) = _
    rw [splitCommaAux_cons, if_neg hc, ih t (c :: cur) (fun hm => h (List.mem_cons_of_mem c hm))]
    simp

theorem pySplit_join :
    ∀ l : List String, l ≠ [] → (∀ d ∈ l, ',' ∉ d.data) →
      pySplitComma (joinComma l) = l := by
  intro l
  induction l with
  | nil => intro h _; exact absurd rfl h
  | cons d rest ih =>
    intro _ hc
    cases rest with
    | nil =>
      show (splitCommaAux [] (joinCommaL [d.data])).map String.mk = [d]
      rw [show joinCommaL [d.data] = d.data from rfl]
      rw [splitCommaAux_no_comma d.data [] (hc d (List.mem_cons_self d []))]
      rfl
    | cons d2 rest2 =>
      show (splitCommaAux []
        (joinCommaL ((d :: d2 :: rest2).map String.data))).map String.mk = _
      rw [show joinCommaL ((d :: d2 :: rest2).map String.data) =
        d.data ++ ',' :: joinCommaL ((d2 :: rest2).map String.data) from rfl]
      rw [splitCommaAux_append d.data _ [] (hc d (List.mem_cons_self d _))]
      rw [List.map_cons]
      rw [show String.mk (([] : List Char).reverse ++ d.data) = d from rfl]
      have := ih (by simp) (fun e he => hc e (List.mem_cons_of_mem d he))
      rw [show (splitCommaAux [] (joinCommaL ((d2 :: rest2).map String.data))).map String.mk =
        pySplitComma (joinComma (d2 :: rest2)) from rfl, this]

theorem visitTokens_join (l : List String)
    (hd : ∀ d ∈ l, d ≠ "" ∧ ',' ∉ d.data ∧ pyStrip d = d) :
    visitTokens (joinComma l) = l.map asciiLower := by
  cases l with
  | nil => decide
  | cons d rest =>
    have hsplit : pySplitComma (joinComma (d :: rest)) = d :: rest :=
      pySplit_join (d :: rest) (by simp) (fun e he => (hd e he).2.1)
    unfold visitTokens
    rw [hsplit]
    rw [List.map_congr_left (fun a ha => (hd a ha).2.2), List.map_id']
    rw [List.filter_eq_self.mpr (fun a ha => by simp [(hd a ha).1])]

/-- C10 — visit-days round-trip: creating a patient whose visit-days list
holds nonempty day names without commas or surrounding whitespace stores
them joined by commas in the twelfth column of the appended row, the
list-today tokenizer recovers from that stored text exactly the same tokens
lowercased, and a patient created with visit days `["Monday"]` is selected
by the list-today membership test precisely when the current weekday is
`"monday"`. -/
theorem c10_visit_days_roundtrip (body : Body) (l : List String) (today : String)
    (hv : body "visit days" = some (.strList l))
    (hd : ∀ d ∈ l, d ≠ "" ∧ ',' ∉ d.data ∧ pyStrip d = d) :
    (add_patient_row body).getD 11 (.str "") = .str (joinComma l) ∧
    visitTokens (joinComma l) = l.map asciiLower ∧
    (selectsToday today (joinComma ["Monday"]) = true ↔ today = "monday") := by
  refine ⟨?_, visitTokens_join l hd, ?_⟩
  · simp [add_patient_row, hv, pyJoinArg]
  · have h1 : visitTokens (joinComma ["Monday"]) = ["monday"] := by decide
    simp only [selectsToday, h1]
    simp [List.contains]

/-- C10 witness: the list `["Monday", "Friday"]` is stored as
`"Monday,Friday"`, tokenizes back to `["monday", "friday"]`, and the
`["Monday"]` patient is not selected on a Friday. -/
theorem c10_visit_days_roundtrip_witness :
    (add_patient_row visitBody).getD 11 (.str "") =
      .str (joinComma ["Monday", "Friday"]) ∧
    visitTokens (joinComma ["Monday", "Friday"]) =
      (["Monday", "Friday"] : List String).map asciiLower ∧
    (selectsToday "friday" (joinComma ["Monday"]) = true ↔ "friday" = "monday") :=
  c10_visit_days_roundtrip visitBody ["Monday", "Friday"] "friday" rfl (by decide)
